import Mathlib

/-!
Verification of the dbt-rowlineage SQL instrumentation engine and token
resolver.

This file is a shallow embedding of the core of the repository:

* `dbt_rowlineage/sql_instrumentation.py` — the sqlglot-based rewriter that
  injects the trace column and the parent-tokens column into every SELECT
  block of a statement (`instrument_sql`, `_inject_lineage`,
  `_process_select_node`, `_build_tokens_expression`);
* `dbt_rowlineage/utils/sql.py` — the reserved column names and the trace
  id generation expression;
* `dbt_rowlineage/tracer.py` — `RowLineageTracer.build_mappings`, which
  resolves parent-token arrays of executed rows back to upstream trace ids;
* `dbt_rowlineage/utils/uuid.py` — `new_trace_id` / `deterministic_uuid`,
  the deterministic row-content hash used when a row carries no trace id.

The sqlglot expression tree is embedded as an inductive fragment that covers
exactly the node kinds the instrumentation engine constructs or inspects
(Alias, Identifier/Column, Literal, Property, Cast, Concat, Array, Coalesce,
ArrayConcat, ArrayUnique, ArrayUniqueAgg, AggFunc subclasses, other function
calls and infix operators).  Scalar subqueries inside select items and
statement kinds other than SELECT and set operations are outside the
fragment; they are never touched by the engine.  Parsing and SQL emission
are performed by the external sqlglot library, so they enter the model as
parameters: `instrument_sql` receives the parse result (success or failure)
and the per-statement emitter as arguments.  Likewise `uuid.uuid5`, the
deterministic digest of the standard library, enters as a string-to-string
parameter, and `datetime.now` as the `executed_at` string parameter.
-/

/-! ## Trace vocabulary (`dbt_rowlineage/utils/sql.py`) -/

/-- Reserved per-row trace identifier column name (`TRACE_COLUMN`). -/
def TRACE_COLUMN : String := "_row_trace_id"

/-- Reserved parent provenance tokens column name (`PARENT_TRACE_COLUMN`). -/
def PARENT_TRACE_COLUMN : String := "_row_parent_trace_ids"

/-! ## The sqlglot expression-tree fragment -/

/-- Scalar/array SQL expressions as built and inspected by the engine.
Each constructor names the sqlglot node it embeds. -/
inductive SqlExpr : Type where
  /-- A bare identifier or single-part column reference
  (`exp.Identifier` / `exp.Column`). -/
  | ident (name : String)
  /-- A string literal (`exp.Literal.string`). -/
  | litStr (s : String)
  /-- A qualified column read `tbl.col`, as constructed by the engine via
  `exp.Property(this=Identifier(tbl), expressions=[Identifier(col)])`. -/
  | prop (tbl : String) (col : String)
  /-- A cast `e :: ty` (`exp.Cast(this=e, to=DataType ty)`). -/
  | cast (e : SqlExpr) (ty : String)
  /-- String concatenation (`exp.Concat(expressions=args)`). -/
  | concat (args : List SqlExpr)
  /-- An array literal (`exp.Array(expressions=args)`). -/
  | array (args : List SqlExpr)
  /-- Null-safety fallback (`exp.Coalesce(this=e, expressions=fallbacks)`). -/
  | coalesce (e : SqlExpr) (fallbacks : List SqlExpr)
  /-- Array concatenation (`exp.ArrayConcat(this=a, expression=b)`). -/
  | arrayConcat (a : SqlExpr) (b : SqlExpr)
  /-- Deduplication of one array's elements (`exp.ArrayUnique(this=e)`). -/
  | arrayUnique (e : SqlExpr)
  /-- Across-rows flatten-and-deduplicate aggregate
  (`exp.ArrayUniqueAgg(this=e)`). -/
  | arrayUniqueAgg (e : SqlExpr)
  /-- An aggregate-function call: any node whose class is a subclass of
  `exp.AggFunc` (Count, Sum, Max, ...). -/
  | aggCall (fn : String) (args : List SqlExpr)
  /-- A non-aggregate function call (md5, random, clock_timestamp, ...). -/
  | funcCall (fn : String) (args : List SqlExpr)
  /-- An infix operator node, e.g. `exp.DPipe` for `||`. -/
  | binop (op : String) (a : SqlExpr) (b : SqlExpr)

/-- The parsed form of `TRACE_EXPRESSION =
"md5(random()::text || clock_timestamp()::text)::uuid"`, i.e. the result of
`sqlglot.parse_one(TRACE_EXPRESSION)` in `_process_select_node`. -/
def TRACE_EXPRESSION_AST : SqlExpr :=
  SqlExpr.cast
    (SqlExpr.funcCall "md5"
      [SqlExpr.binop "||"
        (SqlExpr.cast (SqlExpr.funcCall "random" []) "text")
        (SqlExpr.cast (SqlExpr.funcCall "clock_timestamp" []) "text")])
    "uuid"

/-- One entry of a SELECT output list (`node.selects`). -/
inductive SelectItem : Type where
  /-- An aliased output expression `e AS name`
  (`exp.Alias(this=e, alias=Identifier(name))`). -/
  | alias (e : SqlExpr) (name : String)
  /-- Any non-`exp.Alias` output item, e.g. a plain column reference or an
  unaliased function call. -/
  | expr (e : SqlExpr)

mutual
/-- One SELECT block (`exp.Select`): output list, optional FROM source, JOIN
sources, and the GROUP BY / DISTINCT flags.  `hasGroupBy` models
`bool(node.args.get("group"))` (a parsed GROUP BY clause is never empty) and
`hasDistinct` models `bool(node.args.get("distinct"))`.  Each JOIN clause is
modeled by its source relation; ON conditions contain no Table or Subquery
nodes in the fragment. -/
inductive SelectBlock : Type where
  | mk (selects : List SelectItem) (fromSrc : Option Source)
       (joins : List Source) (hasGroupBy : Bool) (hasDistinct : Bool)

/-- A source relation: a named table (`exp.Table`, whose `alias_or_name`
falls back to the table name) or a parenthesized subquery with an alias
(`exp.Subquery`, whose `alias_or_name` falls back to the empty string). -/
inductive Source : Type where
  | table (name : String) (tblAlias : Option String)
  | subquery (inner : SelectBlock) (subAlias : Option String)
end

/-- Output list of a block. -/
def SelectBlock.selects : SelectBlock → List SelectItem
  | .mk sel _ _ _ _ => sel

/-- FROM source of a block. -/
def SelectBlock.fromSrc : SelectBlock → Option Source
  | .mk _ f _ _ _ => f

/-- JOIN sources of a block, in clause order. -/
def SelectBlock.joins : SelectBlock → List Source
  | .mk _ _ js _ _ => js

/-- GROUP BY presence flag. -/
def SelectBlock.hasGroupBy : SelectBlock → Bool
  | .mk _ _ _ g _ => g

/-- DISTINCT presence flag. -/
def SelectBlock.hasDistinct : SelectBlock → Bool
  | .mk _ _ _ _ d => d

/-- The `alias_or_name` of a source: a table falls back to its own name, a
subquery to the empty string (sqlglot returns `""` for an unaliased
subquery). -/
def alias_or_name : Source → String
  | .table n a => a.getD n
  | .subquery _ a => a.getD ""

/-! ## Token Expression Builder (`_build_tokens_expression`) -/

/-- The classification test of `_build_tokens_expression` (lines 109-113):
`bool(node.args.get("group")) or any(isinstance(f, exp.AggFunc) for f in
node.expressions) or bool(node.args.get("distinct"))`.  Note that
`isinstance(f, exp.AggFunc)` looks at the top-level node of each output
item only: an aggregate call nested below an `exp.Alias` is not seen. -/
def item_is_agg_func : SelectItem → Bool
  | .expr (SqlExpr.aggCall _ _) => true
  | _ => false

/-- Whether the block is classified as aggregating by the code. -/
def is_aggregated (node : SelectBlock) : Bool :=
  node.hasGroupBy || node.selects.any item_is_agg_func || node.hasDistinct

mutual
/-- All `exp.Table` and `exp.Subquery` nodes in the subtree of one source,
as yielded by sqlglot's `find_all(exp.Table, exp.Subquery)`: the walk does
not stop at a subquery but continues into its internals. -/
def source_find_all : Source → List Source
  | .table n a => [Source.table n a]
  | .subquery inner a => Source.subquery inner a :: block_subtree_sources inner

/-- All Table/Subquery nodes strictly inside a block (its FROM and JOIN
subtrees; in the fragment no other argument of a SELECT holds such nodes). -/
def block_subtree_sources : SelectBlock → List Source
  | .mk _ f js _ _ => opt_subtree_sources f ++ list_subtree_sources js

/-- Table/Subquery nodes under an optional source. -/
def opt_subtree_sources : Option Source → List Source
  | none => []
  | some s => source_find_all s

/-- Table/Subquery nodes under a list of sources, in order. -/
def list_subtree_sources : List Source → List Source
  | [] => []
  | s :: rest => source_find_all s ++ list_subtree_sources rest
end

/-- The `sources` list of `_build_tokens_expression` (lines 115-122):
`from_item.find_all(exp.Table, exp.Subquery)` followed by
`join.find_all(exp.Table, exp.Subquery)` for each join in clause order. -/
def enum_sources (node : SelectBlock) : List Source :=
  opt_subtree_sources node.fromSrc ++ list_subtree_sources node.joins

/-- The per-source token expression of the loop body (lines 124-158):
skip a source with empty `alias_or_name`; a subquery contributes a read of
its own parent-tokens column; a table contributes a one-element array with
`"<alias>:" || cast(alias._row_trace_id as text)`. -/
def token_contribution (source : Source) : Option SqlExpr :=
  let a := alias_or_name source
  if a = "" then none
  else
    match source with
    | .subquery _ _ => some (SqlExpr.prop a PARENT_TRACE_COLUMN)
    | .table _ _ =>
        some (SqlExpr.array
          [SqlExpr.concat
            [SqlExpr.litStr (a ++ ":"),
             SqlExpr.cast (SqlExpr.prop a TRACE_COLUMN) "text"]])

/-- The expression computing the parent-tokens array of one block
(`_build_tokens_expression`, lines 104-225).  With no contributing source
the result is the empty array (line 162).  Otherwise every contribution is
wrapped in `COALESCE(contribution, ARRAY[])` and the wrapped contributions
are folded left into a chain of `ArrayConcat` nodes (lines 164-178),
finalized with `ArrayUnique` for a row-preserving block and with
`ArrayUniqueAgg` for an aggregating one (lines 187-225). -/
def build_tokens_expression (node : SelectBlock) : SqlExpr :=
  let source_exprs := (enum_sources node).filterMap token_contribution
  match source_exprs with
  | [] => SqlExpr.array []
  | e :: rest =>
      let first := SqlExpr.coalesce e [SqlExpr.array []]
      let merged := rest.foldl
        (fun m s => SqlExpr.arrayConcat m (SqlExpr.coalesce s [SqlExpr.array []]))
        first
      if is_aggregated node then SqlExpr.arrayUniqueAgg merged
      else SqlExpr.arrayUnique merged

/-! ## Lineage Injector (`_process_select_node`, `_inject_lineage`) -/

/-- The per-item test `isinstance(item, exp.Alias) and item.alias == name`. -/
def item_alias_matches (it : SelectItem) (name : String) : Bool :=
  match it with
  | .alias _ a => a == name
  | .expr _ => false

/-- Whether the output list holds an `exp.Alias` whose alias is `name`:
`any(isinstance(alias, exp.Alias) and alias.alias == name for alias in
node.selects)`. -/
def has_alias_named (items : List SelectItem) (name : String) : Bool :=
  items.any fun it => item_alias_matches it name

/-- Python `list.insert(i, x)`: insert before index `i`, clamping to the
end when `i` exceeds the length. -/
def py_insert {α : Type} (i : Nat) (x : α) (l : List α) : List α :=
  l.take i ++ x :: l.drop i

/-- The per-block injection of `_process_select_node` (lines 55-101): if no
output alias is named `_row_trace_id`, prepend the trace column at index 0;
then, unless an output alias is named `_row_parent_trace_ids`, build the
tokens expression on the updated node and insert it aliased at index 1. -/
def process_select_node (node : SelectBlock) : SelectBlock :=
  match node with
  | .mk sel f js g d =>
      let sel1 :=
        if has_alias_named sel TRACE_COLUMN then sel
        else SelectItem.alias TRACE_EXPRESSION_AST TRACE_COLUMN :: sel
      if has_alias_named sel1 PARENT_TRACE_COLUMN then SelectBlock.mk sel1 f js g d
      else
        let tokens_expr := build_tokens_expression (SelectBlock.mk sel1 f js g d)
        SelectBlock.mk
          (py_insert 1 (SelectItem.alias tokens_expr PARENT_TRACE_COLUMN) sel1)
          f js g d

mutual
/-- Instrument every SELECT block inside a source. -/
def instrument_source : Source → Source
  | .table n a => Source.table n a
  | .subquery inner a => Source.subquery (instrument_block inner) a

/-- Instrument a SELECT block and, recursively, every SELECT block nested in
its sources.  `_inject_lineage` iterates `find_all(exp.Select)` in document
order over a shared mutable tree; since `_process_select_node` edits only
the `selects` list of its own node and never adds or removes Table, Subquery
or Select nodes, that is equivalent to this recursion, which processes the
node on its original sources and then descends. -/
def instrument_block : SelectBlock → SelectBlock
  | .mk sel f js g d =>
      match process_select_node (SelectBlock.mk sel f js g d) with
      | .mk sel2 _ _ _ _ =>
          SelectBlock.mk sel2 (instrument_opt f) (instrument_list js) g d

/-- Instrument an optional source. -/
def instrument_opt : Option Source → Option Source
  | none => none
  | some s => some (instrument_source s)

/-- Instrument each source of a list. -/
def instrument_list : List Source → List Source
  | [] => []
  | s :: rest => instrument_source s :: instrument_list rest
end

/-- One parsed SQL statement: a SELECT, a set operation over two statements
(`exp.Union` etc., whose operands may again hold SELECT blocks), or any
other statement kind, which the engine passes through unchanged. -/
inductive Stmt : Type where
  | selectStmt (b : SelectBlock)
  | setOp (op : String) (l : Stmt) (r : Stmt)
  | other (raw : String)

/-- The statement-level walk of `_inject_lineage` (lines 43-52): process
every SELECT block found anywhere in the statement tree. -/
def inject_lineage : Stmt → Stmt
  | .selectStmt b => Stmt.selectStmt (instrument_block b)
  | .setOp op l r => Stmt.setOp op (inject_lineage l) (inject_lineage r)
  | .other s => Stmt.other s

/-- The entry point `instrument_sql` (lines 20-40).  Parsing and emission
are done by the external sqlglot library, so the parse result and the
per-statement emitter are parameters: a parse failure (the `except` branch)
returns the original text, an empty statement list returns the original
text, and otherwise every statement is transformed and the emitted texts
are joined with `";\n"`. -/
def instrument_sql (parsed : Except String (List Stmt)) (emit : Stmt → String)
    (compiled_sql : String) : String :=
  match parsed with
  | .error _ => compiled_sql
  | .ok exprs =>
      if exprs.isEmpty then compiled_sql
      else String.intercalate ";\n" ((exprs.map inject_lineage).map emit)

/-! ## Row values (`tracer.py` operates on Python rows) -/

/-- Python values as they occur in fetched rows: `None`, strings, integers,
booleans and lists.  The fragment covers every value the tracer inspects. -/
inductive Value : Type where
  | vNone
  | vStr (s : String)
  | vInt (n : Int)
  | vBool (b : Bool)
  | vList (xs : List Value)

/-- Python truthiness of a value (`if not x`, `x or y`). -/
def Value.truthy : Value → Bool
  | .vNone => false
  | .vStr s => !(s == "")
  | .vInt n => !(n == 0)
  | .vBool b => b
  | .vList xs => !xs.isEmpty

mutual
/-- Python `==` on the modeled values (structural; the cross-type numeric
comparisons of Python do not occur in the repository's rows). -/
def value_beq : Value → Value → Bool
  | .vNone, .vNone => true
  | .vStr a, .vStr b => a == b
  | .vInt a, .vInt b => a == b
  | .vBool a, .vBool b => a == b
  | .vList a, .vList b => value_list_beq a b
  | _, _ => false

/-- Elementwise `==` on lists of values. -/
def value_list_beq : List Value → List Value → Bool
  | [], [] => true
  | a :: as2, b :: bs => value_beq a b && value_list_beq as2 bs
  | _, _ => false
end

/-- A fetched row: an ordered mapping from column name to value (Python
dict with unique keys). -/
abbrev Row := List (String × Value)

/-- Python `row.get(key)`: the stored value, or `None` when absent. -/
def row_get (row : Row) (key : String) : Value :=
  (List.lookup key row).getD Value.vNone

/-! ## Deterministic trace ids (`dbt_rowlineage/utils/uuid.py`) -/

mutual
/-- The `_stringify` normalization: dict values do not occur in the modeled
rows; lists are bracketed comma-joined items, `None` is `"<null>"`, and
scalars are Python `str(...)`. -/
def stringify : Value → String
  | .vNone => "<null>"
  | .vStr s => s
  | .vInt n => toString n
  | .vBool b => if b then "True" else "False"
  | .vList xs => "[" ++ stringify_items xs ++ "]"

/-- Comma-joined stringified items (`",".join(...)`). -/
def stringify_items : List Value → String
  | [] => ""
  | [x] => stringify x
  | x :: rest => stringify x ++ "," ++ stringify_items rest
end

/-- Stable insertion into an ascending list of keys. -/
def insert_sorted (x : String) : List String → List String
  | [] => [x]
  | y :: ys => if x ≤ y then x :: y :: ys else y :: insert_sorted x ys

/-- Python `sorted(...)` on the key list (ascending, by code points). -/
def sort_keys (l : List String) : List String :=
  l.foldr insert_sorted []

/-- The `_normalize_payload` seed: `"|".join(f"{key}:{stringify(value)}")`
over the keys in sorted order. -/
def normalize_payload (payload : Row) : String :=
  String.intercalate "|"
    ((sort_keys (payload.map Prod.fst)).map
      fun k => k ++ ":" ++ stringify (row_get payload k))

/-- Argument of `deterministic_uuid`: a string seed or a mapping. -/
inductive Payload : Type where
  | strP (s : String)
  | mapP (m : Row)

/-- The `deterministic_uuid` helper.  `uuid.uuid5(NAMESPACE_URL, seed)` is
the deterministic digest of the Python standard library; it enters the
model as the parameter `u5`. -/
def deterministic_uuid (u5 : String → String) (payload : Payload) : String :=
  match payload with
  | .strP s => u5 s
  | .mapP m => u5 (normalize_payload m)

/-- The scrub of `new_trace_id`: the row without its `_row_trace_id`
entry. -/
def scrub_row (row : Row) : Row :=
  row.filter fun kv => !(kv.1 == TRACE_COLUMN)

/-- The `new_trace_id` helper: hash the scrubbed row content, falling back
to the seed `"empty-row"` when nothing remains (`scrubbed or
"empty-row"`). -/
def new_trace_id (u5 : String → String) (row : Row) : String :=
  let scrubbed := scrub_row row
  if scrubbed.isEmpty then deterministic_uuid u5 (Payload.strP "empty-row")
  else deterministic_uuid u5 (Payload.mapP scrubbed)

/-! ## The tracer (`dbt_rowlineage/tracer.py`) -/

/-- The `RowLineageConfig` fields used by the tracer. -/
structure RowLineageConfig : Type where
  enabled : Bool
  export_format : String
  export_path : Option String
  lineage_mode : String

/-- A configuration with `lineage_mode = "tokens"`. -/
def tokens_config : RowLineageConfig :=
  ⟨true, "jsonl", none, "tokens"⟩

/-- One mapping record, as assembled by `build_mappings`. -/
structure MappingRecord : Type where
  source_model : String
  target_model : String
  source_trace_id : Value
  target_trace_id : Value
  compiled_sql : String
  executed_at : String

/-- The per-target-row body of the tokens branch of `build_mappings`
(lines 41-78): take the row's trace id, replacing a falsy one by
`new_trace_id(row)`; when the parent-tokens value is truthy, iterate the
token list (a non-list value leaves it empty), skip non-string tokens, and
emit one record for every token starting with `"<source_model>:"`, with the
remainder of the token as the source trace id. -/
def row_token_mappings (u5 : String → String) (source_model target_model : String)
    (compiled_sql executed_at : String) (target_row : Row) : List MappingRecord :=
  let tt0 := row_get target_row TRACE_COLUMN
  let target_trace :=
    if tt0.truthy then tt0 else Value.vStr (new_trace_id u5 target_row)
  let parent_tokens := row_get target_row PARENT_TRACE_COLUMN
  if parent_tokens.truthy then
    let tokens_list :=
      match parent_tokens with
      | .vList xs => xs
      | _ => []
    tokens_list.filterMap fun tok =>
      match tok with
      | .vStr s =>
          let pfx := source_model ++ ":"
          if pfx.data.isPrefixOf s.data then
            some ⟨source_model, target_model, Value.vStr (s.drop pfx.length),
                  target_trace, compiled_sql, executed_at⟩
          else none
      | _ => none
  else []

/-- The `_rows_share_values` heuristic predicate (lines 141-156): two
non-empty rows share values when their common keys, the trace column
excluded, are non-empty and agree pairwise. -/
def rows_share_values (source_row target_row : Row) : Bool :=
  if source_row.isEmpty || target_row.isEmpty then false
  else
    let shared := (source_row.map Prod.fst).filter fun k =>
      !(k == TRACE_COLUMN) && (target_row.map Prod.fst).contains k
    if shared.isEmpty then false
    else shared.all fun k => value_beq (row_get source_row k) (row_get target_row k)

/-- Truncating three-way zip (Python `zip`). -/
def zip3 {α β γ : Type} : List α → List β → List γ → List (α × β × γ)
  | a :: as2, b :: bs, c :: cs => (a, b, c) :: zip3 as2 bs cs
  | _, _, _ => []

/-- The legacy heuristic branch of `build_mappings` (lines 88-120):
precompute a stable trace id per target row, match each target against every
source sharing values, fall back to positional zipping when nothing matched,
and emit one record per matched pair. -/
def heuristic_mappings (u5 : String → String) (executed_at : String)
    (source_rows target_rows : List Row)
    (source_model target_model compiled_sql : String) : List MappingRecord :=
  let target_pairs := target_rows.map fun row =>
    let v := row_get row TRACE_COLUMN
    (row, if v.truthy then v else Value.vStr (new_trace_id u5 row))
  let matched0 := target_pairs.flatMap fun p =>
    (source_rows.filter fun s => rows_share_values s p.1).map fun s => (s, p.1, p.2)
  let matched :=
    if matched0.isEmpty then zip3 source_rows target_rows (target_pairs.map Prod.snd)
    else matched0
  matched.map fun m =>
    let sv := row_get m.1 TRACE_COLUMN
    let source_trace :=
      if sv.truthy then sv else Value.vStr (new_trace_id u5 m.1)
    MappingRecord.mk source_model target_model source_trace m.2.2
      compiled_sql executed_at

/-- `RowLineageTracer.build_mappings` (lines 26-120).  `executed_at` is the
`datetime.now(...).isoformat()` timestamp and `u5` the `uuid.uuid5` digest,
both parameters of the model.  In tokens mode the per-row token resolutions
are concatenated over the target rows and returned (the trailing
`if mappings: return mappings ... return []` returns the same list);
otherwise the heuristic branch runs. -/
def build_mappings (u5 : String → String) (executed_at : String)
    (config : RowLineageConfig) (source_rows target_rows : List Row)
    (source_model target_model compiled_sql : String) : List MappingRecord :=
  if config.lineage_mode == "tokens" then
    let mappings := target_rows.flatMap
      (row_token_mappings u5 source_model target_model compiled_sql executed_at)
    if mappings.isEmpty then [] else mappings
  else
    heuristic_mappings u5 executed_at source_rows target_rows
      source_model target_model compiled_sql

/-! ## Helper lemmas -/

/-- Unfolding `has_alias_named` over a cons cell. -/
theorem has_alias_named_cons (x : SelectItem) (l : List SelectItem) (name : String) :
    has_alias_named (x :: l) name = (item_alias_matches x name || has_alias_named l name) := rfl

/-- `List.any` over a Python-style insertion sees exactly the inserted
element plus the original list. -/
theorem any_py_insert {α : Type} (p : α → Bool) (i : Nat) (x : α) (l : List α) :
    (py_insert i x l).any p = (p x || l.any p) := by
  unfold py_insert
  rw [List.any_append, List.any_cons]
  conv_rhs => rw [← List.take_append_drop i l, List.any_append]
  cases hpx : p x <;> cases h1 : (l.take i).any p <;> cases h2 : (l.drop i).any p <;>
    simp [hpx, h1, h2]

/-- `has_alias_named` over a Python-style insertion. -/
theorem has_alias_named_py_insert (i : Nat) (x : SelectItem) (l : List SelectItem)
    (name : String) :
    has_alias_named (py_insert i x l) name =
      (item_alias_matches x name || has_alias_named l name) :=
  any_py_insert _ i x l

/-- After `process_select_node`, an output alias named as the trace column
is always present. -/
theorem process_select_node_has_trace (sel : List SelectItem) (f : Option Source)
    (js : List Source) (g d : Bool) :
    has_alias_named (process_select_node (SelectBlock.mk sel f js g d)).selects
      TRACE_COLUMN = true := by
  unfold process_select_node
  cases hT : has_alias_named sel TRACE_COLUMN with
  | true =>
      simp only [hT, if_true]
      cases hP : has_alias_named sel PARENT_TRACE_COLUMN with
      | true => simp [hP, SelectBlock.selects, hT]
      | false =>
          simp [hP, SelectBlock.selects, has_alias_named_py_insert,
            item_alias_matches, hT]
  | false =>
      simp only [hT]
      cases hP : has_alias_named
          (SelectItem.alias TRACE_EXPRESSION_AST TRACE_COLUMN :: sel)
          PARENT_TRACE_COLUMN with
      | true => simp [hP, SelectBlock.selects, has_alias_named_cons, item_alias_matches]
      | false =>
          simp [hP, SelectBlock.selects, has_alias_named_py_insert,
            has_alias_named_cons, item_alias_matches]

/-- After `process_select_node`, an output alias named as the parent-tokens
column is always present. -/
theorem process_select_node_has_parent (sel : List SelectItem) (f : Option Source)
    (js : List Source) (g d : Bool) :
    has_alias_named (process_select_node (SelectBlock.mk sel f js g d)).selects
      PARENT_TRACE_COLUMN = true := by
  unfold process_select_node
  cases hT : has_alias_named sel TRACE_COLUMN with
  | true =>
      simp only [hT, if_true]
      cases hP : has_alias_named sel PARENT_TRACE_COLUMN with
      | true => simp [hP, SelectBlock.selects]
      | false =>
          simp [hP, SelectBlock.selects, has_alias_named_py_insert,
            item_alias_matches]
  | false =>
      simp only [hT]
      cases hP : has_alias_named
          (SelectItem.alias TRACE_EXPRESSION_AST TRACE_COLUMN :: sel)
          PARENT_TRACE_COLUMN with
      | true => simp [hP, SelectBlock.selects, hP]
      | false =>
          simp [hP, SelectBlock.selects, has_alias_named_py_insert,
            item_alias_matches]

/-! ## Claim C2 -/

/-- C2: on parse failure for the given dialect, `instrument_sql` returns the
original, unmodified SQL text.  The `except` branch of the code catches the
parser exception, so the model's failure case is an ordinary value and the
function is total: no exception reaches the caller. -/
theorem instrument_sql_parse_failure_passthrough (err : String)
    (emit : Stmt → String) (sql : String) :
    instrument_sql (Except.error err) emit sql = sql := rfl

/-! ## Claim C3 -/

/-- C3: for a block whose output list carries neither reserved column as an
alias, the processed block's output list is the trace column (aliased
identifier-generation expression) at position 0, the parent-tokens column at
position 1, and the pre-existing output expressions after them in their
original order. -/
theorem process_select_node_column_order (sel : List SelectItem) (f : Option Source)
    (js : List Source) (g d : Bool)
    (h1 : has_alias_named sel TRACE_COLUMN = false)
    (h2 : has_alias_named sel PARENT_TRACE_COLUMN = false) :
    ∃ tok : SqlExpr,
      (process_select_node (SelectBlock.mk sel f js g d)).selects =
        SelectItem.alias TRACE_EXPRESSION_AST TRACE_COLUMN ::
          SelectItem.alias tok PARENT_TRACE_COLUMN :: sel := by
  have hc : has_alias_named
      (SelectItem.alias TRACE_EXPRESSION_AST TRACE_COLUMN :: sel)
      PARENT_TRACE_COLUMN = false := by
    rw [has_alias_named_cons, h2]
    decide
  refine ⟨build_tokens_expression
    (SelectBlock.mk (SelectItem.alias TRACE_EXPRESSION_AST TRACE_COLUMN :: sel)
      f js g d), ?_⟩
  unfold process_select_node
  simp [h1, hc, SelectBlock.selects, py_insert]

/-- Witness for C3 on the concrete block of `SELECT id FROM users`. -/
theorem process_select_node_column_order_witness :
    ∃ tok : SqlExpr,
      (process_select_node (SelectBlock.mk [SelectItem.expr (SqlExpr.ident "id")]
          (some (Source.table "users" none)) [] false false)).selects =
        SelectItem.alias TRACE_EXPRESSION_AST TRACE_COLUMN ::
          SelectItem.alias tok PARENT_TRACE_COLUMN ::
            [SelectItem.expr (SqlExpr.ident "id")] :=
  process_select_node_column_order [SelectItem.expr (SqlExpr.ident "id")]
    (some (Source.table "users" none)) [] false false rfl rfl

/-! ## Claim C8 -/

/-- C8: a block with no FROM source and no JOIN enumerates zero sources; the
Token Expression Builder still succeeds there and returns the empty-array
expression, and processing the block always ends with both reserved columns
present in the output list. -/
theorem no_source_block_still_instrumented (sel : List SelectItem) (g d : Bool) :
    build_tokens_expression (SelectBlock.mk sel none [] g d) = SqlExpr.array [] ∧
    has_alias_named
      (process_select_node (SelectBlock.mk sel none [] g d)).selects
      TRACE_COLUMN = true ∧
    has_alias_named
      (process_select_node (SelectBlock.mk sel none [] g d)).selects
      PARENT_TRACE_COLUMN = true :=
  ⟨rfl, process_select_node_has_trace sel none [] g d,
    process_select_node_has_parent sel none [] g d⟩

/-! ## Claim C9 -/

/-- Equality of the two reserved names is false. -/
theorem trace_ne_parent : (TRACE_COLUMN == PARENT_TRACE_COLUMN) = false := by decide

/-- Equality of the two reserved names is false (other direction). -/
theorem parent_ne_trace : (PARENT_TRACE_COLUMN == TRACE_COLUMN) = false := by decide

/-- The sqlglot `output_name` of an expression used as a bare select item:
a column reference exposes its column name, other expressions none. -/
def expr_output_name : SqlExpr → String
  | .ident n => n
  | .prop _ c => c
  | _ => ""

/-- The output column name of a select item: the alias of an `exp.Alias`,
otherwise the expression's own output name. -/
def SelectItem.output_name : SelectItem → String
  | .alias _ a => a
  | .expr e => expr_output_name e

/-- How many output entries of the list are named `name`. -/
def count_outputs_named (items : List SelectItem) (name : String) : Nat :=
  (items.filter fun it => it.output_name == name).length

/-- How many output entries are an `exp.Alias` named `name`. -/
def count_alias_named (items : List SelectItem) (name : String) : Nat :=
  (items.filter fun it => item_alias_matches it name).length

/-- A counting variant of `has_alias_named_cons`. -/
theorem count_alias_named_cons (x : SelectItem) (l : List SelectItem) (name : String) :
    count_alias_named (x :: l) name =
      count_alias_named l name + (if item_alias_matches x name then 1 else 0) := by
  unfold count_alias_named
  rw [List.filter_cons]
  cases h : item_alias_matches x name <;> simp [h]

/-- Counting aliases through a Python-style insertion. -/
theorem count_alias_named_py_insert (i : Nat) (x : SelectItem) (l : List SelectItem)
    (name : String) :
    count_alias_named (py_insert i x l) name =
      count_alias_named l name + (if item_alias_matches x name then 1 else 0) := by
  unfold py_insert count_alias_named
  rw [List.filter_append, List.length_append, List.filter_cons]
  conv_rhs => rw [← List.take_append_drop i l, List.filter_append, List.length_append]
  cases h : item_alias_matches x name
  · simp [h]
  · simp [h]
    omega

/-- The block of `SELECT _row_trace_id FROM t`: the reserved trace name
occurs as a plain (unaliased) column reference in the output list. -/
def plain_trace_block : SelectBlock :=
  SelectBlock.mk [SelectItem.expr (SqlExpr.ident TRACE_COLUMN)]
    (some (Source.table "t" none)) [] false false

/-- Counterexample to C9 as stated: on a block whose output list carries the
reserved trace name only as a plain column reference, `_process_select_node`
does not treat the column as present and inserts a second output column with
the same reserved name (the output list goes from one to two entries named
`_row_trace_id`). -/
theorem process_select_node_duplicates_plain_reference :
    count_outputs_named plain_trace_block.selects TRACE_COLUMN = 1 ∧
    count_outputs_named ((process_select_node plain_trace_block).selects)
      TRACE_COLUMN = 2 :=
  ⟨by decide, by decide⟩

/-- C9 as amended: only an output column written as an aliased expression
with a reserved name is treated as already present; such a pre-existing
aliased occurrence is never duplicated (the number of aliased occurrences of
that reserved name is unchanged by processing). -/
theorem process_select_node_never_duplicates_alias (sel : List SelectItem)
    (f : Option Source) (js : List Source) (g d : Bool) (name : String)
    (hres : name = TRACE_COLUMN ∨ name = PARENT_TRACE_COLUMN)
    (hp : has_alias_named sel name = true) :
    count_alias_named ((process_select_node (SelectBlock.mk sel f js g d)).selects)
      name = count_alias_named sel name := by
  rcases hres with h | h <;> subst h
  · unfold process_select_node
    simp only [hp, if_true]
    cases hP : has_alias_named sel PARENT_TRACE_COLUMN with
    | true => simp [SelectBlock.selects]
    | false =>
        simp [SelectBlock.selects, count_alias_named_py_insert,
          item_alias_matches, parent_ne_trace]
  · unfold process_select_node
    cases hT : has_alias_named sel TRACE_COLUMN with
    | true => simp [hT, hp, SelectBlock.selects]
    | false =>
        have hc : has_alias_named
            (SelectItem.alias TRACE_EXPRESSION_AST TRACE_COLUMN :: sel)
            PARENT_TRACE_COLUMN = true := by
          rw [has_alias_named_cons, hp]
          simp
        simp [hT, hc, SelectBlock.selects, count_alias_named_cons,
          item_alias_matches, trace_ne_parent]

/-- Witness for the amended C9: a block already carrying
`... AS _row_trace_id` keeps exactly one aliased occurrence of it. -/
theorem process_select_node_never_duplicates_alias_witness :
    count_alias_named ((process_select_node (SelectBlock.mk
        [SelectItem.alias (SqlExpr.ident "x") TRACE_COLUMN]
        (some (Source.table "t" none)) [] false false)).selects) TRACE_COLUMN =
      count_alias_named [SelectItem.alias (SqlExpr.ident "x") TRACE_COLUMN]
        TRACE_COLUMN :=
  process_select_node_never_duplicates_alias
    [SelectItem.alias (SqlExpr.ident "x") TRACE_COLUMN]
    (some (Source.table "t" none)) [] false false TRACE_COLUMN
    (Or.inl rfl) (by decide)

/-! ## Claim C1 -/

/-- Whether a block's own output list carries both reserved aliases. -/
def block_has_both (b : SelectBlock) : Bool :=
  has_alias_named b.selects TRACE_COLUMN &&
    has_alias_named b.selects PARENT_TRACE_COLUMN

mutual
/-- Every SELECT block inside the source carries both reserved aliases. -/
def source_fully_instrumented : Source → Bool
  | .table _ _ => true
  | .subquery inner _ => block_fully_instrumented inner

/-- Every SELECT block of the tree rooted at this block, the block itself
included, carries both reserved aliases. -/
def block_fully_instrumented : SelectBlock → Bool
  | .mk sel f js g d =>
      block_has_both (SelectBlock.mk sel f js g d) &&
        opt_fully_instrumented f && list_fully_instrumented js

/-- Instrumentedness through an optional source. -/
def opt_fully_instrumented : Option Source → Bool
  | none => true
  | some s => source_fully_instrumented s

/-- Instrumentedness through a source list. -/
def list_fully_instrumented : List Source → Bool
  | [] => true
  | s :: rest => source_fully_instrumented s && list_fully_instrumented rest
end

/-- Every SELECT block of the statement carries both reserved aliases. -/
def stmt_fully_instrumented : Stmt → Bool
  | .selectStmt b => block_fully_instrumented b
  | .setOp _ l r => stmt_fully_instrumented l && stmt_fully_instrumented r
  | .other _ => true

/-- A block already carrying both reserved aliases passes through
`_process_select_node` unchanged. -/
theorem process_select_node_already_instrumented (sel : List SelectItem)
    (f : Option Source) (js : List Source) (g d : Bool)
    (hT : has_alias_named sel TRACE_COLUMN = true)
    (hP : has_alias_named sel PARENT_TRACE_COLUMN = true) :
    process_select_node (SelectBlock.mk sel f js g d) = SelectBlock.mk sel f js g d := by
  unfold process_select_node
  simp [hT, hP]

mutual
/-- A fully instrumented source is a fixed point of `instrument_source`. -/
theorem instrument_source_id (s : Source)
    (h : source_fully_instrumented s = true) : instrument_source s = s := by
  cases s with
  | table n a => rfl
  | subquery inner a =>
      have hi : block_fully_instrumented inner = true := by
        simpa [source_fully_instrumented] using h
      simp [instrument_source, instrument_block_id inner hi]

/-- A fully instrumented block is a fixed point of `instrument_block`. -/
theorem instrument_block_id (b : SelectBlock)
    (h : block_fully_instrumented b = true) : instrument_block b = b := by
  cases b with
  | mk sel f js g d =>
      rw [block_fully_instrumented, Bool.and_eq_true, Bool.and_eq_true] at h
      obtain ⟨⟨hboth, hopt⟩, hlist⟩ := h
      rw [block_has_both, Bool.and_eq_true] at hboth
      rw [instrument_block,
        process_select_node_already_instrumented sel f js g d hboth.1 hboth.2]
      simp [instrument_opt_id f hopt, instrument_list_id js hlist]

/-- A fully instrumented optional source is a fixed point. -/
theorem instrument_opt_id (o : Option Source)
    (h : opt_fully_instrumented o = true) : instrument_opt o = o := by
  cases o with
  | none => rfl
  | some s =>
      have hs : source_fully_instrumented s = true := by
        simpa [opt_fully_instrumented] using h
      simp [instrument_opt, instrument_source_id s hs]

/-- A fully instrumented source list is a fixed point. -/
theorem instrument_list_id (l : List Source)
    (h : list_fully_instrumented l = true) : instrument_list l = l := by
  cases l with
  | nil => rfl
  | cons s rest =>
      rw [list_fully_instrumented, Bool.and_eq_true] at h
      simp [instrument_list, instrument_source_id s h.1, instrument_list_id rest h.2]
end

/-- A fully instrumented statement is a fixed point of `_inject_lineage`. -/
theorem inject_lineage_id (s : Stmt) (h : stmt_fully_instrumented s = true) :
    inject_lineage s = s := by
  induction s with
  | selectStmt b =>
      have hb : block_fully_instrumented b = true := by
        simpa [stmt_fully_instrumented] using h
      simp [inject_lineage, instrument_block_id b hb]
  | setOp op l r ihl ihr =>
      rw [stmt_fully_instrumented, Bool.and_eq_true] at h
      simp [inject_lineage, ihl h.1, ihr h.2]
  | other s => rfl

/-- Mapping `_inject_lineage` over fully instrumented statements is the
identity. -/
theorem map_inject_lineage_id (stmts : List Stmt)
    (h : stmts.all stmt_fully_instrumented = true) :
    stmts.map inject_lineage = stmts := by
  induction stmts with
  | nil => rfl
  | cons a l ih =>
      rw [List.all_cons, Bool.and_eq_true] at h
      simp [inject_lineage_id a h.1, ih h.2]

/-- C1: instrumentation is idempotent.  When every SELECT block of every
parsed statement already carries both reserved columns as output aliases, no
statement is changed (no column is inserted anywhere) and `instrument_sql`
returns exactly the re-emission of the parsed input — the identity up to the
emitter's whitespace/formatting normalization. -/
theorem instrument_sql_idempotent_on_instrumented (stmts : List Stmt)
    (emit : Stmt → String) (sql : String) (hne : stmts ≠ [])
    (hinst : stmts.all stmt_fully_instrumented = true) :
    stmts.map inject_lineage = stmts ∧
    instrument_sql (Except.ok stmts) emit sql =
      String.intercalate ";\n" (stmts.map emit) := by
  have hmap := map_inject_lineage_id stmts hinst
  refine ⟨hmap, ?_⟩
  unfold instrument_sql
  have hemp : stmts.isEmpty = false := by
    cases stmts with
    | nil => exact absurd rfl hne
    | cons a l => rfl
  simp [hemp, hmap]

/-- An already instrumented statement:
`SELECT md5(...)::uuid AS _row_trace_id, ARRAY[] AS _row_parent_trace_ids,
id FROM users`. -/
def instrumented_stmt_example : Stmt :=
  Stmt.selectStmt (SelectBlock.mk
    [SelectItem.alias TRACE_EXPRESSION_AST TRACE_COLUMN,
     SelectItem.alias (SqlExpr.array []) PARENT_TRACE_COLUMN,
     SelectItem.expr (SqlExpr.ident "id")]
    (some (Source.table "users" none)) [] false false)

/-- Witness for C1 on a concrete instrumented statement. -/
theorem instrument_sql_idempotent_on_instrumented_witness :
    [instrumented_stmt_example].map inject_lineage = [instrumented_stmt_example] ∧
    instrument_sql (Except.ok [instrumented_stmt_example]) (fun _ => "emitted")
        "original sql" =
      String.intercalate ";\n" ([instrumented_stmt_example].map (fun _ => "emitted")) :=
  instrument_sql_idempotent_on_instrumented [instrumented_stmt_example]
    (fun _ => "emitted") "original sql" (List.cons_ne_nil _ _) (by decide)

/-! ## Claim C4 -/

mutual
/-- Whether an aggregate-function call occurs anywhere inside an
expression (the containment reading of the spec's classifier). -/
def expr_contains_agg : SqlExpr → Bool
  | .aggCall _ _ => true
  | .ident _ => false
  | .litStr _ => false
  | .prop _ _ => false
  | .cast e _ => expr_contains_agg e
  | .concat args => exprs_contain_agg args
  | .array args => exprs_contain_agg args
  | .coalesce e fs => expr_contains_agg e || exprs_contain_agg fs
  | .arrayConcat a b => expr_contains_agg a || expr_contains_agg b
  | .arrayUnique e => expr_contains_agg e
  | .arrayUniqueAgg e => expr_contains_agg e
  | .funcCall _ args => exprs_contain_agg args
  | .binop _ a b => expr_contains_agg a || expr_contains_agg b

/-- Aggregate-call containment over an argument list. -/
def exprs_contain_agg : List SqlExpr → Bool
  | [] => false
  | e :: rest => expr_contains_agg e || exprs_contain_agg rest
end

/-- Aggregate-call containment inside one output item, the alias wrapper
included. -/
def item_contains_agg : SelectItem → Bool
  | .alias e _ => expr_contains_agg e
  | .expr e => expr_contains_agg e

/-- The classifier exactly as claim C4 states it: non-empty GROUP BY, or an
aggregate-function call contained in some output expression, or DISTINCT. -/
def spec_is_aggregating (b : SelectBlock) : Bool :=
  b.hasGroupBy || b.selects.any item_contains_agg || b.hasDistinct

/-- Whether an expression is the across-rows flatten-and-deduplicate
finalizer. -/
def is_unique_agg_shape : SqlExpr → Bool
  | .arrayUniqueAgg _ => true
  | _ => false

/-- The block of `SELECT count(*) AS c FROM t`: the aggregate call sits
below an alias wrapper. -/
def aliased_aggregate_block : SelectBlock :=
  SelectBlock.mk [SelectItem.alias (SqlExpr.aggCall "count" []) "c"]
    (some (Source.table "t" none)) [] false false

/-- Counterexample to C4 as stated: `SELECT count(*) AS c FROM t` contains
an aggregate-function call in its output expressions (so the claim calls it
aggregating), yet the code's top-level `isinstance(f, exp.AggFunc)` test
does not see through the alias wrapper, classifies the block as
row-preserving, and finalizes with the within-single-array deduplication
instead of the across-rows aggregate. -/
theorem build_tokens_expression_misses_aliased_aggregate :
    spec_is_aggregating aliased_aggregate_block = true ∧
    is_aggregated aliased_aggregate_block = false ∧
    is_unique_agg_shape (build_tokens_expression aliased_aggregate_block) = false ∧
    build_tokens_expression aliased_aggregate_block =
      SqlExpr.arrayUnique
        (SqlExpr.coalesce
          (SqlExpr.array [SqlExpr.concat
            [SqlExpr.litStr "t:",
             SqlExpr.cast (SqlExpr.prop "t" TRACE_COLUMN) "text"]])
          [SqlExpr.array []]) :=
  ⟨rfl, rfl, rfl, rfl⟩

/-- C4 as amended: the builder classifies a block as aggregating iff it has
a GROUP BY, or some output expression is itself — at top level, not nested
below an alias or any other node — an aggregate-function call, or it uses
DISTINCT; whenever at least one source contributes, an aggregating block's
combined token array is finalized with the across-rows
flatten-and-deduplicate aggregate and a row-preserving block's with the
within-single-array deduplication. -/
theorem build_tokens_expression_finalizer (b : SelectBlock)
    (h : (enum_sources b).filterMap token_contribution ≠ []) :
    if b.hasGroupBy || b.selects.any item_is_agg_func || b.hasDistinct
    then ∃ m, build_tokens_expression b = SqlExpr.arrayUniqueAgg m
    else ∃ m, build_tokens_expression b = SqlExpr.arrayUnique m := by
  rcases hse : (enum_sources b).filterMap token_contribution with _ | ⟨e, rest⟩
  · exact absurd hse h
  · have hbody : build_tokens_expression b =
        (if is_aggregated b
         then SqlExpr.arrayUniqueAgg (rest.foldl
            (fun m s => SqlExpr.arrayConcat m (SqlExpr.coalesce s [SqlExpr.array []]))
            (SqlExpr.coalesce e [SqlExpr.array []]))
         else SqlExpr.arrayUnique (rest.foldl
            (fun m s => SqlExpr.arrayConcat m (SqlExpr.coalesce s [SqlExpr.array []]))
            (SqlExpr.coalesce e [SqlExpr.array []]))) := by
      unfold build_tokens_expression
      rw [hse]
    cases hAgg : is_aggregated b with
    | true =>
        rw [show (b.hasGroupBy || b.selects.any item_is_agg_func || b.hasDistinct)
          = true from hAgg]
        rw [hAgg] at hbody
        exact ⟨_, by simpa using hbody⟩
    | false =>
        rw [show (b.hasGroupBy || b.selects.any item_is_agg_func || b.hasDistinct)
          = false from hAgg]
        rw [hAgg] at hbody
        exact ⟨_, by simpa using hbody⟩

/-- The block of `SELECT region, count(*) FROM users GROUP BY region`. -/
def grouped_block : SelectBlock :=
  SelectBlock.mk
    [SelectItem.expr (SqlExpr.ident "region"),
     SelectItem.expr (SqlExpr.aggCall "count" [])]
    (some (Source.table "users" none)) [] true false

/-- Witness for the amended C4 on a concrete GROUP BY block. -/
theorem build_tokens_expression_finalizer_witness :
    if grouped_block.hasGroupBy || grouped_block.selects.any item_is_agg_func
        || grouped_block.hasDistinct
    then ∃ m, build_tokens_expression grouped_block = SqlExpr.arrayUniqueAgg m
    else ∃ m, build_tokens_expression grouped_block = SqlExpr.arrayUnique m :=
  build_tokens_expression_finalizer grouped_block (List.cons_ne_nil _ _)

/-! ## Claim C6 -/

/-- The inner block of the failing input: `SELECT y FROM t`. -/
def nested_inner_block : SelectBlock :=
  SelectBlock.mk [SelectItem.expr (SqlExpr.ident "y")]
    (some (Source.table "t" none)) [] false false

/-- The outer block of the failing input:
`SELECT x FROM (SELECT y FROM t) AS sub`. -/
def nested_outer_block : SelectBlock :=
  SelectBlock.mk [SelectItem.expr (SqlExpr.ident "x")]
    (some (Source.subquery nested_inner_block (some "sub"))) [] false false

/-- C6 evaluated on the failing input: because `find_all(exp.Table,
exp.Subquery)` walks the whole FROM subtree, the table `t` nested inside the
subquery source is enumerated as a source of the OUTER block as well, and
the outer parent-tokens expression gains a second contribution reading
`t._row_trace_id` — an alias that is not in scope in the outer query —
contradicting the claim (and the spec) that enumeration does not recurse
into a subquery's internals and only the subquery's alias is used. -/
theorem enum_sources_recurses_into_subquery_internals :
    enum_sources nested_outer_block =
      [Source.subquery nested_inner_block (some "sub"), Source.table "t" none] ∧
    build_tokens_expression nested_outer_block =
      SqlExpr.arrayUnique
        (SqlExpr.arrayConcat
          (SqlExpr.coalesce (SqlExpr.prop "sub" PARENT_TRACE_COLUMN)
            [SqlExpr.array []])
          (SqlExpr.coalesce
            (SqlExpr.array [SqlExpr.concat
              [SqlExpr.litStr "t:",
               SqlExpr.cast (SqlExpr.prop "t" TRACE_COLUMN) "text"]])
            [SqlExpr.array []])) :=
  ⟨rfl, rfl⟩

/-! ## Claim C5 -/

/-- The token contribution of a Table Reference as the spec words it: a
single-element array holding the concatenation of the literal `"<alias>:"`
with the source's trace column value cast to text. -/
def spec_table_token (a : String) : SqlExpr :=
  SqlExpr.array [SqlExpr.concat
    [SqlExpr.litStr (a ++ ":"),
     SqlExpr.cast (SqlExpr.prop a TRACE_COLUMN) "text"]]

/-- The null-safety fallback as the spec words it: coalesce the contribution
to an empty array. -/
def spec_wrap (e : SqlExpr) : SqlExpr :=
  SqlExpr.coalesce e [SqlExpr.array []]

/-- Left-to-right combination of wrapped contributions into one array
expression, as the spec words it. -/
def spec_combine_from (acc : SqlExpr) : List SqlExpr → SqlExpr
  | [] => acc
  | e :: rest => spec_combine_from (SqlExpr.arrayConcat acc (spec_wrap e)) rest

/-- The combined array expression over the contributions in
source-enumeration order. -/
def spec_combined : List SqlExpr → SqlExpr
  | [] => SqlExpr.array []
  | e :: rest => spec_combine_from (spec_wrap e) rest

/-- The spec-side combination is the code's left fold. -/
theorem spec_combine_from_foldl (l : List SqlExpr) (acc : SqlExpr) :
    spec_combine_from acc l =
      l.foldl (fun m s => SqlExpr.arrayConcat m (spec_wrap s)) acc := by
  induction l generalizing acc with
  | nil => rfl
  | cons e rest ih => simp [spec_combine_from, ih]

/-- Source enumeration over a list of plain tables is the list itself. -/
theorem list_subtree_sources_tables (ts : List (String × Option String)) :
    list_subtree_sources (ts.map fun p => Source.table p.1 p.2) =
      ts.map fun p => Source.table p.1 p.2 := by
  induction ts with
  | nil => rfl
  | cons p rest ih => simp [list_subtree_sources, source_find_all, ih]

/-- Over aliased tables, the contribution loop yields one spec-shaped table
token array per table, in order. -/
theorem filterMap_token_contribution_tables (ts : List (String × Option String))
    (h : ∀ p ∈ ts, alias_or_name (Source.table p.1 p.2) ≠ "") :
    (ts.map fun p => Source.table p.1 p.2).filterMap token_contribution =
      ts.map fun p => spec_table_token (alias_or_name (Source.table p.1 p.2)) := by
  induction ts with
  | nil => rfl
  | cons p rest ih =>
      have hp := h p (List.mem_cons_self p rest)
      have hrest : ∀ q ∈ rest, alias_or_name (Source.table q.1 q.2) ≠ "" :=
        fun q hq => h q (List.mem_cons_of_mem p hq)
      simp [List.filterMap_cons, token_contribution, hp, spec_table_token, ih hrest]

/-- C5: for a block whose FROM source and JOIN sources are tables with
resolvable aliases, every table contributes the single-element array
`ARRAY["<alias>:" || cast(alias._row_trace_id as text)]`, each contribution
is wrapped in a coalesce-to-empty-array fallback, and the wrapped
contributions are combined left-to-right in source-enumeration order — the
FROM table first, then the JOIN tables in clause order — into one combined
array expression, which the builder then finalizes. -/
theorem build_tokens_expression_table_sources (sel : List SelectItem) (g d : Bool)
    (n0 : String) (a0 : Option String) (ts : List (String × Option String))
    (h0 : alias_or_name (Source.table n0 a0) ≠ "")
    (hts : ∀ p ∈ ts, alias_or_name (Source.table p.1 p.2) ≠ "") :
    build_tokens_expression
      (SelectBlock.mk sel (some (Source.table n0 a0))
        (ts.map fun p => Source.table p.1 p.2) g d) =
    (if is_aggregated (SelectBlock.mk sel (some (Source.table n0 a0))
          (ts.map fun p => Source.table p.1 p.2) g d)
      then SqlExpr.arrayUniqueAgg else SqlExpr.arrayUnique)
      (spec_combined
        (spec_table_token (alias_or_name (Source.table n0 a0)) ::
          ts.map fun p => spec_table_token (alias_or_name (Source.table p.1 p.2)))) := by
  have henum : enum_sources
      (SelectBlock.mk sel (some (Source.table n0 a0))
        (ts.map fun p => Source.table p.1 p.2) g d) =
      Source.table n0 a0 :: ts.map fun p => Source.table p.1 p.2 := by
    simp [enum_sources, SelectBlock.fromSrc, SelectBlock.joins, opt_subtree_sources,
      source_find_all, list_subtree_sources_tables]
  unfold build_tokens_expression
  rw [henum, List.filterMap_cons]
  have hc0 : token_contribution (Source.table n0 a0) =
      some (spec_table_token (alias_or_name (Source.table n0 a0))) := by
    simp [token_contribution, h0, spec_table_token]
  rw [hc0, filterMap_token_contribution_tables ts hts]
  rw [spec_combined, spec_combine_from_foldl]
  cases hA : is_aggregated (SelectBlock.mk sel (some (Source.table n0 a0))
      (ts.map fun p => Source.table p.1 p.2) g d) <;> simp [hA, spec_wrap]

/-- Witness for C5 on `SELECT ... FROM t1 AS a JOIN t2 AS b`. -/
theorem build_tokens_expression_table_sources_witness :
    build_tokens_expression
      (SelectBlock.mk [] (some (Source.table "t1" (some "a")))
        ([("t2", some "b")].map fun p => Source.table p.1 p.2) false false) =
    (if is_aggregated (SelectBlock.mk [] (some (Source.table "t1" (some "a")))
          ([("t2", some "b")].map fun p => Source.table p.1 p.2) false false)
      then SqlExpr.arrayUniqueAgg else SqlExpr.arrayUnique)
      (spec_combined
        (spec_table_token (alias_or_name (Source.table "t1" (some "a"))) ::
          [("t2", some "b")].map fun p =>
            spec_table_token (alias_or_name (Source.table p.1 p.2)))) :=
  build_tokens_expression_table_sources [] false false "t1" (some "a")
    [("t2", some "b")] (by decide) (by decide)

/-! ## Claim C7 -/

/-- The if on an emptiness test returns the list itself. -/
theorem ite_isEmpty_self {α : Type} (l : List α) :
    (if l.isEmpty then ([] : List α) else l) = l := by
  cases l <;> rfl

/-- In tokens mode with one target row, `build_mappings` is the per-row
token resolution of that row. -/
theorem build_mappings_tokens_single (u5 : String → String) (ts : String)
    (source_rows : List Row) (row : Row) (sm tm csql : String) :
    build_mappings u5 ts tokens_config source_rows [row] sm tm csql =
      row_token_mappings u5 sm tm csql ts row := by
  unfold build_mappings
  simp [tokens_config, ite_isEmpty_self]

/-- Projecting the source trace ids out of the per-token loop yields the
prefix-filtered suffixes. -/
theorem token_loop_source_ids (sm tm csql ts : String) (tt : Value)
    (tokens : List String) :
    ((tokens.map Value.vStr).filterMap (fun tok =>
        match tok with
        | Value.vStr s =>
            if (sm ++ ":").data.isPrefixOf s.data then
              some (MappingRecord.mk sm tm (Value.vStr (s.drop (sm ++ ":").length))
                tt csql ts)
            else none
        | _ => none)).map (fun r => r.source_trace_id) =
      (tokens.filter fun t => (sm ++ ":").data.isPrefixOf t.data).map
        (fun t => Value.vStr (t.drop (sm ++ ":").length)) := by
  induction tokens with
  | nil => rfl
  | cons t rest ih =>
      rw [List.map_cons, List.filterMap_cons, List.filter_cons]
      cases hp : (sm ++ ":").data.isPrefixOf t.data with
      | true =>
          simp only [hp]
          simpa using ih
      | false =>
          simp only [hp]
          simpa using ih

/-- C7: token resolution partitions by prefix.  For a target row whose
parent-tokens value is a list of strings, the source trace ids of the
mappings built against upstream model `sm` are exactly the suffixes of the
tokens that start with the exact prefix `"sm:"`, in order; tokens with a
different prefix contribute nothing. -/
theorem build_mappings_token_partition (u5 : String → String)
    (ts : String) (source_rows : List Row) (row : Row) (tokens : List String)
    (sm tm csql : String)
    (h : List.lookup PARENT_TRACE_COLUMN row =
      some (Value.vList (tokens.map Value.vStr))) :
    (build_mappings u5 ts tokens_config source_rows [row] sm tm csql).map
        (fun r => r.source_trace_id) =
      (tokens.filter fun t => (sm ++ ":").data.isPrefixOf t.data).map
        (fun t => Value.vStr (t.drop (sm ++ ":").length)) := by
  rw [build_mappings_tokens_single]
  unfold row_token_mappings
  rw [show row_get row PARENT_TRACE_COLUMN = Value.vList (tokens.map Value.vStr) by
    simp [row_get, h]]
  cases tokens with
  | nil => simp [Value.truthy]
  | cons t rest =>
      simp only [Value.truthy, List.map_cons, List.isEmpty_cons, Bool.not_false,
        if_true]
      exact token_loop_source_ids sm tm csql ts _ (t :: rest)

/-- The round-trip target row of the spec example, with parent tokens
`["a:u1", "a:u2", "b:u3"]`. -/
def roundtrip_row : Row :=
  [("id", Value.vInt 1),
   (PARENT_TRACE_COLUMN, Value.vList
     [Value.vStr "a:u1", Value.vStr "a:u2", Value.vStr "b:u3"])]

/-- Witness for C7: resolving the example row against model `a` yields
exactly the suffixes `u1` and `u2`. -/
theorem build_mappings_token_partition_witness :
    (build_mappings (fun s => s) "t0" tokens_config [] [roundtrip_row] "a" "m2"
        "q").map (fun r => r.source_trace_id) =
      [Value.vStr "u1", Value.vStr "u2"] :=
  (build_mappings_token_partition (fun s => s) "t0" [] roundtrip_row
    ["a:u1", "a:u2", "b:u3"] "a" "m2" "q" rfl).trans rfl

/-! ## Claim C10 -/

/-- C10: in tokens mode a target row whose trace-column value is null,
absent or otherwise falsy is not skipped.  With a matching parent token the
built mappings are non-empty, every emitted record's target trace id is the
deterministic content hash `new_trace_id` of the row, and that hash depends
only on the row's content outside the trace column, so two calls on the
same row content produce the same id. -/
theorem build_mappings_hashes_missing_trace (u5 : String → String) (ts : String)
    (source_rows : List Row) (row : Row) (tokens : List String) (t : String)
    (sm tm csql : String)
    (h0 : (row_get row TRACE_COLUMN).truthy = false)
    (h1 : List.lookup PARENT_TRACE_COLUMN row =
      some (Value.vList (tokens.map Value.vStr)))
    (h2 : t ∈ tokens)
    (h3 : (sm ++ ":").data.isPrefixOf t.data = true) :
    build_mappings u5 ts tokens_config source_rows [row] sm tm csql ≠ [] ∧
    (∀ r ∈ build_mappings u5 ts tokens_config source_rows [row] sm tm csql,
      r.target_trace_id = Value.vStr (new_trace_id u5 row)) ∧
    (∀ row2 : Row, scrub_row row2 = scrub_row row →
      new_trace_id u5 row2 = new_trace_id u5 row) := by
  have hparent : row_get row PARENT_TRACE_COLUMN =
      Value.vList (tokens.map Value.vStr) := by
    simp [row_get, h1]
  have htne : tokens ≠ [] := by
    rintro rfl
    exact absurd h2 (List.not_mem_nil t)
  have htruthy : Value.truthy (Value.vList (tokens.map Value.vStr)) = true := by
    cases tokens with
    | nil => exact absurd rfl htne
    | cons a l => rfl
  have hrt : row_token_mappings u5 sm tm csql ts row =
      (tokens.map Value.vStr).filterMap (fun tok =>
        match tok with
        | Value.vStr s =>
            if (sm ++ ":").data.isPrefixOf s.data then
              some (MappingRecord.mk sm tm (Value.vStr (s.drop (sm ++ ":").length))
                (Value.vStr (new_trace_id u5 row)) csql ts)
            else none
        | _ => none) := by
    unfold row_token_mappings
    rw [hparent]
    simp [h0, htruthy]
  rw [build_mappings_tokens_single, hrt]
  refine ⟨?_, ?_, ?_⟩
  · have hmem : (MappingRecord.mk sm tm (Value.vStr (t.drop (sm ++ ":").length))
        (Value.vStr (new_trace_id u5 row)) csql ts) ∈
        (tokens.map Value.vStr).filterMap (fun tok =>
          match tok with
          | Value.vStr s =>
              if (sm ++ ":").data.isPrefixOf s.data then
                some (MappingRecord.mk sm tm
                  (Value.vStr (s.drop (sm ++ ":").length))
                  (Value.vStr (new_trace_id u5 row)) csql ts)
              else none
          | _ => none) := by
      rw [List.mem_filterMap]
      refine ⟨Value.vStr t, List.mem_map_of_mem _ h2, ?_⟩
      simp
      simpa using h3
    exact List.ne_nil_of_mem hmem
  · intro r hr
    rw [List.mem_filterMap] at hr
    obtain ⟨a, _, hfa⟩ := hr
    cases a with
    | vStr s =>
        simp at hfa
        rw [← hfa.2]
    | vNone => simp at hfa
    | vInt n => simp at hfa
    | vBool b => simp at hfa
    | vList xs => simp at hfa
  · intro row2 hs
    unfold new_trace_id
    rw [hs]

/-- A target row with no trace id at all and one matching parent token. -/
def missing_trace_row : Row :=
  [("count", Value.vInt 4),
   (PARENT_TRACE_COLUMN, Value.vList [Value.vStr "m:u1"])]

/-- Witness for C10 on the concrete trace-less row. -/
theorem build_mappings_hashes_missing_trace_witness :
    build_mappings (fun s => String.append "h-" s) "t1" tokens_config []
        [missing_trace_row] "m" "tgt" "sql" ≠ [] ∧
    (∀ r ∈ build_mappings (fun s => String.append "h-" s) "t1" tokens_config []
        [missing_trace_row] "m" "tgt" "sql",
      r.target_trace_id = Value.vStr
        (new_trace_id (fun s => String.append "h-" s) missing_trace_row)) ∧
    (∀ row2 : Row, scrub_row row2 = scrub_row missing_trace_row →
      new_trace_id (fun s => String.append "h-" s) row2 =
        new_trace_id (fun s => String.append "h-" s) missing_trace_row) :=
  build_mappings_hashes_missing_trace (fun s => String.append "h-" s) "t1" []
    missing_trace_row ["m:u1"] "m:u1" "m" "tgt" "sql" rfl rfl (by decide) rfl
